import Mathlib

/-!
Shallow embedding of the client-side job-orchestration layer of the Cloak
frontend: the transport client's error normalization (`src/frontend/src/lib/api.ts`),
the upload validator and submission handler (the `FileUpload` component),
the debounced prompt analyzer (the `NaturalLanguageInput` component),
and the job poller built around `useJobStatus` (`src/frontend/src/hooks/useApi.ts`).

JavaScript truthiness on strings and numbers (`a || b`) is embedded explicitly:
`""` and `0` and `undefined` are falsy.  Optional values are `Option`,
`undefined` is `none`.
-/

namespace Cloak

/-- JS `a || b` for an optional string `a` (absent or empty is falsy). -/
def jsStrOr (a : Option String) (b : String) : String :=
  match a with
  | some s => if s = "" then b else s
  | none => b

/-- JS `a || b` for an optional number `a` (absent or zero is falsy). -/
def jsNatOr (a : Option Nat) (b : Nat) : Nat :=
  match a with
  | some n => if n = 0 then b else n
  | none => b

/-- JS `s || undefined` on a string: an empty string collapses to `undefined`. -/
def jsStrOrUndef (s : String) : Option String :=
  if s = "" then none else some s

/-- JS `s.trim()`: strip whitespace from both ends (spelled out on the
character list so that it evaluates by kernel reduction). -/
def jsTrim (s : String) : String :=
  String.mk (((s.data.dropWhile Char.isWhitespace).reverse.dropWhile
      Char.isWhitespace).reverse)

/-- JS `!!id` on a nullable string: `null` and `""` are falsy. -/
def jsTruthyId : Option String → Bool
  | none => false
  | some s => s ≠ ""

/-- The shape of an axios error as seen by the response interceptor:
`response` is present iff an HTTP response was received, carrying the HTTP
status code and the optional `data.detail` field of the body; `message` is
the transport-level message (possibly empty). -/
structure AxiosErrorLike where
  response : Option (Nat × Option String)
  message : String
deriving DecidableEq, Repr

/-- The normalized error handed to every caller. -/
structure NormalizedError where
  message : String
  status : Nat
deriving DecidableEq, Repr

/-- The response interceptor of `setupInterceptors` in `api.ts`:
`message = error.response?.data?.detail || error.message || 'An error occurred'`,
`status = error.response?.status || 500`. -/
def normalizeError (e : AxiosErrorLike) : NormalizedError where
  message := jsStrOr (e.response.bind Prod.snd) (jsStrOr (some e.message) ("An error occurred"))
  status := jsNatOr (e.response.map Prod.fst) 500

/-! Section: upload validator (`onDrop` in the `FileUpload` component) -/

/-- A locally selected file: name, byte size and declared MIME type. -/
structure FileModel where
  name : String
  size : Nat
  type : String
deriving DecidableEq, Repr

/-- The `const maxSize = 50 * 1024 * 1024` constant in `onDrop`. -/
def maxSize : Nat := 50 * 1024 * 1024

/-- The `allowedTypes` array in `onDrop`. -/
def allowedTypes : List String :=
  ["text/plain",
   "application/pdf",
   "application/vnd.openxmlformats-officedocument.wordprocessingml.document",
   "image/png",
   "image/jpeg",
   "image/jpg"]

/-- Outcome of dropping a file: a rejection toast, or acceptance with the
locally generated ephemeral id. -/
inductive DropResult
  | tooLarge (msg : String)
  | unsupported (msg : String)
  | accepted (id : String)
deriving DecidableEq, Repr

/-- The validation logic of `onDrop`: size first, then MIME type, first
violation wins; on success the file is kept with a locally generated id
(the id generator is a parameter, standing for `Math.random().toString(36)`). -/
def onDrop (genId : String) (f : FileModel) : DropResult :=
  if f.size > maxSize then
    DropResult.tooLarge ("File size must be less than 50MB")
  else if f.type ∉ allowedTypes then
    DropResult.unsupported ("Unsupported file type. Please upload .txt, .pdf, .docx, or image files.")
  else
    DropResult.accepted genId

/-- A file passing both validation rules. -/
def validFile (f : FileModel) : Prop :=
  f.size ≤ maxSize ∧ f.type ∈ allowedTypes

instance (f : FileModel) : Decidable (validFile f) := by
  unfold validFile; infer_instance

/-! Section: multipart form built by `processDocument` in `api.ts` -/

/-- A multipart form value: the file itself or a string. -/
inductive FormValue
  | fileVal (f : FileModel)
  | strVal (s : String)
deriving DecidableEq, Repr

/-- The form built by `processDocument`: appends `file` always; `prompt` only when truthy
(present and non-empty); `preview_only` whenever it is not `undefined`,
stringified (`"true"` / `"false"`). -/
def redactFormData (file : FileModel) (prompt : Option String) (preview : Option Bool) :
    List (String × FormValue) :=
  [(("file"), FormValue.fileVal file)]
    ++ (match prompt with
        | some p => if p = "" then [] else [(("prompt"), FormValue.strVal p)]
        | none => [])
    ++ (match preview with
        | some b => [(("preview_only"), FormValue.strVal (toString b))]
        | none => [])

/-- The filename assigned by `useDownloadResult`:
`a.download = redacted-document-${jobId}.txt`. -/
def downloadFilename (jobId : String) : String :=
  ("redacted-document-") ++ jobId ++ (".txt")

/-! Section: job poller (`useJobStatus` in `useApi.ts`)

The decision values embedded from the source: the `refetchInterval` callback,
the `enabled` gate `enabled && !!jobId`, and the retry budget `retry: 3`.
The surrounding scheduling machinery belongs to the query library; it is
modelled as an explicit event-driven state machine following §4.3 of the spec. -/

/-- The four job statuses of `JobStatusResponse` in `types/api.ts`. -/
inductive JobStatus
  | pending
  | processing
  | completed
  | failed
deriving DecidableEq, Repr

/-- The `refetchInterval` callback of `useJobStatus`: `false` (here `none`)
once the data reports `completed` or `failed`, else 2000 ms. The argument is
the last known data (`data?.status`), absent before any response. -/
def refetchInterval (data : Option JobStatus) : Option Nat :=
  if data = some JobStatus.completed ∨ data = some JobStatus.failed then none
  else some 2000

/-- The `enabled` gate of `useJobStatus`: `enabled && !!jobId`. -/
def pollEnabled (enabled : Bool) (jobId : Option String) : Bool :=
  enabled && jsTruthyId jobId

/-- The `retry: 3` option of `useJobStatus`: a failed status query is retried up to
three times. -/
def retryLimit : Nat := 3

/-- The poller's phase, following §4.3: `failedTerminal` is `Failed(terminal-error)`,
`failedRetries` is `Failed(retries-exhausted)`. -/
inductive Phase
  | idle
  | polling
  | succeeded
  | failedTerminal
  | failedRetries
deriving DecidableEq, Repr

/-- The observable poller state: the job id and caller flag feeding the
`enabled` gate, the last known status snapshot (the cached query data),
the count of consecutive transport failures answered with a retry, and the
phase. -/
structure PollerState where
  jobId : Option String
  enabled : Bool
  snapshot : Option JobStatus
  failures : Nat
  phase : Phase
deriving DecidableEq, Repr

/-- Events driving the poller: the scheduled re-query timer firing, a status
response, a transport-level failure of a status query, the caller toggling
the polling flag, and the caller changing the job id. -/
inductive PollerEvent
  | timer
  | response (s : JobStatus)
  | queryFailure
  | setEnabled (b : Bool)
  | setJob (id : Option String)
deriving DecidableEq, Repr

/-- Outward actions of the poller: issuing a status query for a job id, or
scheduling the next query after a delay in milliseconds. -/
inductive Action
  | issueQuery (id : String)
  | scheduleNext (delayMs : Nat)
deriving DecidableEq, Repr

/-- Modelled from the spec: handling of one status response (§4.3), with the
next-query decision taken verbatim from the source's `refetchInterval`
callback. A response resets the consecutive-failure count; `completed` and
`failed` are terminal; otherwise the next query is scheduled after the
interval the callback returns. -/
def onStatusResponse (st : PollerState) (s : JobStatus) : PollerState × List Action :=
  if st.phase = Phase.polling then
    let st1 : PollerState := { st with snapshot := some s, failures := 0 }
    match refetchInterval (some s) with
    | some d => (st1, [Action.scheduleNext d])
    | none =>
      if s = JobStatus.completed then ({ st1 with phase := Phase.succeeded }, [])
      else ({ st1 with phase := Phase.failedTerminal }, [])
  else (st, [])

/-- Modelled from the spec: handling of a transport-level status-query
failure (§4.3), with the retry budget taken from the source's `retry: 3`.
While fewer than `retryLimit` retries have been issued for the current
query, the query is re-issued; once the last permitted retry has failed,
the poller moves to `Failed(retries-exhausted)`. -/
def onQueryFailure (st : PollerState) : PollerState × List Action :=
  if st.phase = Phase.polling then
    match st.jobId with
    | some id =>
      if st.failures < retryLimit then
        ({ st with failures := st.failures + 1 }, [Action.issueQuery id])
      else
        ({ st with phase := Phase.failedRetries }, [])
    | none => (st, [])
  else (st, [])

/-- Modelled from the spec: the poller step function (§4.3). The timer fires
a query only while in `polling` with the `enabled` gate from the source
satisfied; toggling the flag never discards the snapshot; setting a truthy
job id with polling enabled enters `polling` and issues the initial query;
clearing the job id returns to `idle`. -/
def pollerStep (st : PollerState) : PollerEvent → PollerState × List Action
  | PollerEvent.timer =>
    match st.jobId with
    | some id =>
      if st.phase = Phase.polling ∧ pollEnabled st.enabled (some id) then
        (st, [Action.issueQuery id])
      else (st, [])
    | none => (st, [])
  | PollerEvent.response s => onStatusResponse st s
  | PollerEvent.queryFailure => onQueryFailure st
  | PollerEvent.setEnabled b =>
    match st.jobId, st.phase with
    | some id, Phase.idle =>
      if pollEnabled b (some id) then
        ({ st with enabled := b, phase := Phase.polling }, [Action.issueQuery id])
      else ({ st with enabled := b }, [])
    | _, _ => ({ st with enabled := b }, [])
  | PollerEvent.setJob idOpt =>
    match idOpt with
    | some id =>
      if pollEnabled st.enabled (some id) then
        ({ st with jobId := some id, snapshot := none, failures := 0, phase := Phase.polling },
         [Action.issueQuery id])
      else
        ({ st with jobId := some id, snapshot := none, failures := 0, phase := Phase.idle }, [])
    | none => ({ st with jobId := none, failures := 0, phase := Phase.idle }, [])

/-- Run the poller over a list of events, accumulating the emitted actions. -/
def runPoller (st : PollerState) : List PollerEvent → PollerState × List Action
  | [] => (st, [])
  | e :: es =>
    let r1 := pollerStep st e
    let r2 := runPoller r1.1 es
    (r2.1, r1.2 ++ r2.2)

/-- Whether an event changes the job id. -/
def isSetJob : PollerEvent → Bool
  | PollerEvent.setJob _ => true
  | _ => false

/-! Section: prompt analyzer (the `NaturalLanguageInput` component)

The component debounces `value` into `debouncedValue` with a 500 ms
`setTimeout` (each change clears the previous timer, so at most one timer is
pending and it carries the latest value), and a second effect keyed on
`debouncedValue` calls `analyzePrompt.mutate` when the settled value's
trimmed length exceeds 3. -/

/-- The 500 ms debounce delay of the first effect. -/
def debounceDelayMs : Nat := 500

/-- Observable analyzer state: the current input, the settled (debounced)
value, the delay of the pending debounce timer when one is scheduled, and
the last analysis shown in the preview panel (abstract payload). -/
structure AnalyzerState where
  value : String
  debouncedValue : String
  pendingTimer : Option Nat
  analysis : Option String
deriving DecidableEq, Repr

/-- Events driving the analyzer: an input change, the debounce timer firing,
and an analysis response arriving. -/
inductive AnEvent
  | change (v : String)
  | timerFire
  | analysisResult (a : String)
deriving DecidableEq, Repr

/-- One analyzer step; the second component lists the prompts sent to the
`analyze-prompt` endpoint by this step. A change (re)schedules the debounce
timer; when the timer fires, `debouncedValue` settles to the current input
and, if it changed and its trimmed length exceeds 3, `mutate` is called with
the settled value; shorter settled values issue no call and the stored
analysis is untouched. -/
def analyzerStep (st : AnalyzerState) : AnEvent → AnalyzerState × List String
  | AnEvent.change v =>
    ({ st with value := v, pendingTimer := some debounceDelayMs }, [])
  | AnEvent.timerFire =>
    match st.pendingTimer with
    | some _ =>
      let st1 : AnalyzerState := { st with debouncedValue := st.value, pendingTimer := none }
      if st.value ≠ st.debouncedValue ∧ 3 < (jsTrim st.value).length then
        (st1, [st.value])
      else (st1, [])
    | none => (st, [])
  | AnEvent.analysisResult a => ({ st with analysis := some a }, [])

/-- Run the analyzer over a list of events, accumulating the issued calls. -/
def runAnalyzer (st : AnalyzerState) : List AnEvent → AnalyzerState × List String
  | [] => (st, [])
  | e :: es =>
    let r1 := analyzerStep st e
    let r2 := runAnalyzer r1.1 es
    (r2.1, r1.2 ++ r2.2)

/-! Section: submission flow (the `FileUpload` component)

`onDrop` stores a validated file; `handleProcess` submits the stored file
through `processDocument` with `prompt: prompt.trim() || undefined` and
`preview_only: false`. Network calls are represented explicitly. -/

/-- A network request issued by the submission flow. -/
inductive NetworkCall
  | redact (form : List (String × FormValue))
deriving DecidableEq, Repr

/-- The component state relevant to submission: the stored validated file
with its ephemeral id, and the prompt text. -/
structure UploadUIState where
  uploadedFile : Option (FileModel × String)
  prompt : String
deriving DecidableEq, Repr

/-- User-driven events of the submission flow. -/
inductive UIEvent
  | drop (genId : String) (f : FileModel)
  | setPrompt (p : String)
  | process
deriving DecidableEq, Repr

/-- The form transmitted when `handleProcess` submits a file: the request is
built with `prompt: prompt.trim() || undefined` and `preview_only: false`
and handed to `processDocument`. -/
def handleProcessForm (f : FileModel) (prompt : String) : List (String × FormValue) :=
  redactFormData f (jsStrOrUndef (jsTrim prompt)) (some false)

/-- One step of the submission flow; the second component lists the network
calls issued. A drop that fails validation only shows a toast: no state
change and no call. `process` submits the stored file, if any, building the
form exactly as `processDocument` does. -/
def uiStep (st : UploadUIState) : UIEvent → UploadUIState × List NetworkCall
  | UIEvent.drop genId f =>
    match onDrop genId f with
    | DropResult.accepted id => ({ st with uploadedFile := some (f, id) }, [])
    | _ => (st, [])
  | UIEvent.setPrompt p => ({ st with prompt := p }, [])
  | UIEvent.process =>
    match st.uploadedFile with
    | some fp => (st, [NetworkCall.redact (handleProcessForm fp.1 st.prompt)])
    | none => (st, [])

/-- Run the submission flow over a list of events, accumulating the calls. -/
def runUI (st : UploadUIState) : List UIEvent → UploadUIState × List NetworkCall
  | [] => (st, [])
  | e :: es =>
    let r1 := uiStep st e
    let r2 := runUI r1.1 es
    (r2.1, r1.2 ++ r2.2)

/-! Section: concrete sample values used to instantiate the theorems. -/

/-- A small valid plain-text file. -/
def sampleFile : FileModel :=
  { name := "test.txt", size := 12, type := "text/plain" }

/-- A file one byte over the 50 MiB limit. -/
def hugeFile : FileModel :=
  { name := "big.bin", size := 52428801, type := "text/plain" }

/-- A poller state actively polling a job. -/
def pollingSample : PollerState :=
  { jobId := some ("job-123"), enabled := true, snapshot := some JobStatus.processing,
    failures := 0, phase := Phase.polling }

/-- An idle poller state with no job id. -/
def idleSample : PollerState :=
  { jobId := none, enabled := true, snapshot := some JobStatus.processing,
    failures := 0, phase := Phase.idle }

/-- The submission flow's initial state: nothing uploaded, empty prompt. -/
def emptyUI : UploadUIState :=
  { uploadedFile := none, prompt := "" }

/-- An analyzer state whose pending debounce timer is about to settle a short
input while an earlier analysis is displayed. -/
def analyzerSampleShort : AnalyzerState :=
  { value := "hi ", debouncedValue := "", pendingTimer := some debounceDelayMs,
    analysis := some ("prev-analysis") }

/-! Section: helper lemmas. -/

/-- Characterization of the `file` entries of the form built by `processDocument`. -/
lemma mem_redactFormData_fileKey (f : FileModel) (p : Option String) (b : Option Bool)
    (v : FormValue) :
    ((("file"), v) ∈ redactFormData f p b) ↔ v = FormValue.fileVal f := by
  cases p with
  | none => cases b <;> simp [redactFormData]
  | some s =>
    by_cases hs : s = "" <;> cases b <;> simp [redactFormData, hs]

/-- Characterization of the `prompt` entries of the form built by `processDocument`. -/
lemma mem_redactFormData_prompt (f : FileModel) (p : Option String) (b : Option Bool)
    (v : FormValue) :
    ((("prompt"), v) ∈ redactFormData f p b) ↔
      ∃ s, p = some s ∧ s ≠ "" ∧ v = FormValue.strVal s := by
  cases p with
  | none => cases b <;> simp [redactFormData]
  | some s =>
    by_cases hs : s = "" <;> cases b <;>
      simp [redactFormData, hs, eq_comm]

/-- Characterization of the `preview_only` entries of the form built by
`processDocument`. -/
lemma mem_redactFormData_preview (f : FileModel) (p : Option String) (b : Option Bool)
    (v : FormValue) :
    ((("preview_only"), v) ∈ redactFormData f p b) ↔
      ∃ x, b = some x ∧ v = FormValue.strVal (toString x) := by
  cases p with
  | none => cases b <;> simp [redactFormData]
  | some s =>
    by_cases hs : s = "" <;> cases b <;>
      simp [redactFormData, hs, eq_comm]

/-- A drop is accepted exactly when the file passes both validation rules. -/
lemma onDrop_accepted (genId : String) (f : FileModel) (id : String) :
    onDrop genId f = DropResult.accepted id → validFile f ∧ id = genId := by
  unfold onDrop
  split
  · intro h; cases h
  · split
    · intro h; cases h
    · intro h
      cases h
      refine ⟨⟨by omega, not_not.mp (by assumption)⟩, rfl⟩

/-! Section: claim theorems. -/

/-- C1, counterexample to the claim as stated: a response was received whose
body carries the detail field with value `""`, yet the normalized message is
the transport-level message, not the server-supplied detail. -/
theorem C1_counterexample :
    ({ response := some (502, some ""), message := "Network Error" } : AxiosErrorLike).response
        = some (502, some "") ∧
    (normalizeError { response := some (502, some ""), message := "Network Error" }).message
        = "Network Error" ∧
    ("Network Error" : String) ≠ "" := by
  refine ⟨rfl, rfl, by decide⟩

/-- C1 (amended): the normalized message is the server-supplied detail when a
response was received carrying a non-empty detail; otherwise it is the
transport-level message, falling back to a generic message, so it is never
empty; the status is the response's HTTP status code when a response was
received (with a nonzero status) and 500 when no response was received. -/
theorem C1_error_normalization (e : AxiosErrorLike) :
    (∀ s d, e.response = some (s, some d) → d ≠ "" → (normalizeError e).message = d) ∧
    ((e.response.bind Prod.snd = none ∨ e.response.bind Prod.snd = some "") →
      (normalizeError e).message
        = (if e.message = "" then ("An error occurred") else e.message)) ∧
    (∀ s dOpt, e.response = some (s, dOpt) → s ≠ 0 → (normalizeError e).status = s) ∧
    (e.response = none → (normalizeError e).status = 500) ∧
    (normalizeError e).message ≠ "" := by
  refine ⟨?_, ?_, ?_, ?_, ?_⟩
  · intro s d h hd
    simp [normalizeError, jsStrOr, h, hd]
  · rintro (h | h) <;> simp [normalizeError, jsStrOr, h]
  · intro s dOpt h hs
    simp [normalizeError, jsNatOr, h, hs]
  · intro h
    simp [normalizeError, jsNatOr, h]
  · simp only [normalizeError, jsStrOr]
    cases hb : e.response.bind Prod.snd with
    | none => by_cases hm : e.message = "" <;> simp [hm]
    | some s => by_cases hs : s = "" <;> by_cases hm : e.message = "" <;> simp [hs, hm]

/-- C1, witness: the 413 upload rejection with body detail `File too large`
normalizes to message `File too large` and status 413. -/
theorem C1_error_normalization_witness :
    (normalizeError { response := some (413, some ("File too large")),
                      message := "Request failed with status code 413" }).message
        = "File too large" ∧
    (normalizeError { response := some (413, some ("File too large")),
                      message := "Request failed with status code 413" }).status = 413 := by
  have h := C1_error_normalization
    { response := some (413, some ("File too large")),
      message := "Request failed with status code 413" }
  exact ⟨h.1 413 ("File too large") rfl (by decide),
         h.2.2.1 413 (some ("File too large")) rfl (by decide)⟩

/-- C3: the upload validator checks size first (reject beyond 52,428,800
bytes), then the MIME allow-list, first violation winning, and otherwise
accepts the file under the locally generated ephemeral id. -/
theorem C3_upload_validation (f : FileModel) (id : String) :
    maxSize = 52428800 ∧
    (52428800 < f.size →
      onDrop id f = DropResult.tooLarge ("File size must be less than 50MB")) ∧
    (f.size ≤ 52428800 → f.type ∉ allowedTypes →
      onDrop id f = DropResult.unsupported
        ("Unsupported file type. Please upload .txt, .pdf, .docx, or image files.")) ∧
    (f.size ≤ 52428800 → f.type ∈ allowedTypes → onDrop id f = DropResult.accepted id) := by
  have hmax : maxSize = 52428800 := by norm_num [maxSize]
  refine ⟨hmax, ?_, ?_, ?_⟩
  · intro h
    have h2 : f.size > maxSize := by omega
    simp [onDrop, h2]
  · intro h1 h2
    have h1a : ¬ (f.size > maxSize) := by omega
    simp [onDrop, h1a, h2]
  · intro h1 h2
    have h1a : ¬ (f.size > maxSize) := by omega
    simp [onDrop, h1a, h2]

/-- C3, witness: a 100-byte plain-text file is accepted with its generated
id, and a file one byte over the limit is rejected as too large. -/
theorem C3_upload_validation_witness :
    onDrop ("id9") { name := "a.txt", size := 100, type := "text/plain" }
        = DropResult.accepted ("id9") ∧
    onDrop ("id9") hugeFile = DropResult.tooLarge ("File size must be less than 50MB") := by
  constructor
  · exact (C3_upload_validation { name := "a.txt", size := 100, type := "text/plain" }
      ("id9")).2.2.2 (by norm_num) (by decide)
  · exact (C3_upload_validation hugeFile ("id9")).2.1 (by norm_num [hugeFile])

/-- C7, counterexample to the claim as stated: a prompt is supplied (the
empty string) yet the transmitted form carries no `prompt` field, because the
source guards the append with JS truthiness rather than presence. -/
theorem C7_counterexample :
    (some "" : Option String).isSome = true ∧
    (redactFormData sampleFile (some "") none).filter
        (fun kv => kv.1 == ("prompt")) = [] := by
  exact ⟨rfl, rfl⟩

/-- C7 (amended): the transmitted form always contains the `file` field;
it contains the `prompt` field iff a non-empty prompt was supplied (an absent
or empty prompt is omitted), and it contains the `preview_only` field iff
`previewOnly` was supplied, transmitted as the stringified boolean. -/
theorem C7_redact_form (f : FileModel) (p : Option String) (b : Option Bool) :
    ((("file"), FormValue.fileVal f) ∈ redactFormData f p b) ∧
    (∀ v, ((("prompt"), v) ∈ redactFormData f p b ↔
      ∃ s, p = some s ∧ s ≠ "" ∧ v = FormValue.strVal s)) ∧
    (∀ v, ((("preview_only"), v) ∈ redactFormData f p b ↔
      ∃ x, b = some x ∧ v = FormValue.strVal (toString x))) := by
  refine ⟨(mem_redactFormData_fileKey f p b (FormValue.fileVal f)).mpr rfl,
          fun v => mem_redactFormData_prompt f p b v,
          fun v => mem_redactFormData_preview f p b v⟩

/-- C7, witness: with prompt `Redact SSN only` and `previewOnly := true`
supplied, the form carries the file, the prompt, and `preview_only` as the
string `true`. -/
theorem C7_redact_form_witness :
    ((("file"), FormValue.fileVal sampleFile)
        ∈ redactFormData sampleFile (some ("Redact SSN only")) (some true)) ∧
    ((("prompt"), FormValue.strVal ("Redact SSN only"))
        ∈ redactFormData sampleFile (some ("Redact SSN only")) (some true)) ∧
    ((("preview_only"), FormValue.strVal ("true"))
        ∈ redactFormData sampleFile (some ("Redact SSN only")) (some true)) := by
  have h := C7_redact_form sampleFile (some ("Redact SSN only")) (some true)
  exact ⟨h.1,
         (h.2.1 (FormValue.strVal ("Redact SSN only"))).mpr
           ⟨("Redact SSN only"), rfl, by decide, rfl⟩,
         (h.2.2 (FormValue.strVal ("true"))).mpr ⟨true, rfl, rfl⟩⟩

/-- C9: the artifact is delivered under the filename
`redacted-document-<jobId>.<extension>`, with the fixed extension `txt`. -/
theorem C9_download_filename (j : String) :
    downloadFilename j = ("redacted-document-") ++ j ++ (("." : String) ++ ("txt")) := by
  have hx : (("." : String) ++ ("txt")) = (".txt") := rfl
  rw [hx]
  rfl

/-- C10: in the submission path the form carries a `prompt` field iff the
user prompt trimmed of whitespace is non-empty, in which case its value is
the trimmed string, and `preview_only` is always transmitted as the string
`false`. -/
theorem C10_submission_prompt (f : FileModel) (p : String) :
    (∀ v, ((("prompt"), v) ∈ handleProcessForm f p ↔
      jsTrim p ≠ "" ∧ v = FormValue.strVal (jsTrim p))) ∧
    ((("preview_only"), FormValue.strVal ("false")) ∈ handleProcessForm f p) ∧
    (∀ v, ((("preview_only"), v) ∈ handleProcessForm f p → v = FormValue.strVal ("false"))) := by
  refine ⟨?_, ?_, ?_⟩
  · intro v
    rw [handleProcessForm, mem_redactFormData_prompt]
    by_cases h : jsTrim p = "" <;> simp [jsStrOrUndef, h]
  · rw [handleProcessForm]
    exact (mem_redactFormData_preview f _ (some false) _).mpr ⟨false, rfl, rfl⟩
  · intro v h
    rw [handleProcessForm] at h
    obtain ⟨x, hx, hv⟩ := (mem_redactFormData_preview f _ (some false) v).mp h
    have hxf : false = x := by injection hx
    rw [← hxf] at hv
    exact hv

/-- C10, witness: a prompt surrounded by whitespace is transmitted trimmed,
alongside `preview_only` as the string `false`. -/
theorem C10_submission_prompt_witness :
    ((("prompt"), FormValue.strVal ("Redact emails"))
        ∈ handleProcessForm sampleFile (" Redact emails ")) ∧
    ((("preview_only"), FormValue.strVal ("false"))
        ∈ handleProcessForm sampleFile (" Redact emails ")) := by
  have h := C10_submission_prompt sampleFile (" Redact emails ")
  exact ⟨(h.1 (FormValue.strVal ("Redact emails"))).mpr ⟨by decide, by decide⟩, h.2.1⟩

/-- In a phase that is neither `polling` nor `idle`, any run of events that
never changes the job id emits no action and keeps the phase. -/
lemma runPoller_terminal : ∀ (evs : List PollerEvent) (st : PollerState),
    st.phase ≠ Phase.polling → st.phase ≠ Phase.idle →
    (∀ e ∈ evs, isSetJob e = false) →
    (runPoller st evs).2 = [] ∧ (runPoller st evs).1.phase = st.phase := by
  intro evs
  induction evs with
  | nil => intro st _ _ _; exact ⟨rfl, rfl⟩
  | cons e es ih =>
    intro st h1 h2 hno
    have he : isSetJob e = false := hno e (List.mem_cons_self e es)
    have hstep : (pollerStep st e).2 = [] ∧
        (pollerStep st e).1.phase = st.phase := by
      cases e with
      | timer =>
        cases hj : st.jobId with
        | none => simp [pollerStep, hj]
        | some id => simp [pollerStep, hj, h1]
      | response s => simp [pollerStep, onStatusResponse, h1]
      | queryFailure => simp [pollerStep, onQueryFailure, h1]
      | setEnabled b =>
        cases hj : st.jobId with
        | none => simp [pollerStep, hj]
        | some id =>
          cases hph : st.phase <;> simp_all [pollerStep]
      | setJob idOpt => simp [isSetJob] at he
    have hrest := ih (pollerStep st e).1
      (by rw [hstep.2]; exact h1) (by rw [hstep.2]; exact h2)
      (fun x hx => hno x (List.mem_cons_of_mem e hx))
    refine ⟨?_, ?_⟩
    · show ((pollerStep st e).2 ++ (runPoller (pollerStep st e).1 es).2) = []
      rw [hstep.1, hrest.1]
      rfl
    · show (runPoller (pollerStep st e).1 es).1.phase = st.phase
      rw [hrest.2, hstep.2]

/-- C2: while polling, a status response schedules the next query after the
fixed 2000 ms delay exactly when it reports `pending` or `processing`; a
response reporting `completed` or `failed` emits nothing and, for the rest of
any run that keeps the job id, no status query or scheduling action is ever
issued again. -/
theorem C2_poll_scheduling (st : PollerState) (hp : st.phase = Phase.polling) :
    (∀ s, ((pollerStep st (PollerEvent.response s)).2 = [Action.scheduleNext 2000] ↔
        (s = JobStatus.pending ∨ s = JobStatus.processing))) ∧
    (∀ s, (s = JobStatus.completed ∨ s = JobStatus.failed) →
      (pollerStep st (PollerEvent.response s)).2 = [] ∧
      (∀ evs, (∀ e ∈ evs, isSetJob e = false) →
        (runPoller (pollerStep st (PollerEvent.response s)).1 evs).2 = [])) := by
  constructor
  · intro s
    cases s <;> simp [pollerStep, onStatusResponse, refetchInterval, hp]
  · intro s hs
    have hphase : (pollerStep st (PollerEvent.response s)).1.phase
        = (if s = JobStatus.completed then Phase.succeeded else Phase.failedTerminal) ∧
        (pollerStep st (PollerEvent.response s)).2 = [] := by
      rcases hs with rfl | rfl <;>
        simp [pollerStep, onStatusResponse, refetchInterval, hp]
    refine ⟨hphase.2, fun evs hno => ?_⟩
    have hterm := runPoller_terminal evs (pollerStep st (PollerEvent.response s)).1 ?_ ?_ hno
    · exact hterm.1
    · rw [hphase.1]; rcases hs with rfl | rfl <;> simp
    · rw [hphase.1]; rcases hs with rfl | rfl <;> simp

/-- C2, witness: a `processing` response schedules the next query after
2000 ms, and after a `completed` response a later timer fire, transport
failure and even a further status response all issue nothing. -/
theorem C2_poll_scheduling_witness :
    (pollerStep pollingSample (PollerEvent.response JobStatus.processing)).2
        = [Action.scheduleNext 2000] ∧
    (runPoller (pollerStep pollingSample (PollerEvent.response JobStatus.completed)).1
        [PollerEvent.timer, PollerEvent.queryFailure,
         PollerEvent.response JobStatus.pending]).2 = [] := by
  have h := C2_poll_scheduling pollingSample rfl
  refine ⟨(h.1 JobStatus.processing).mpr (Or.inr rfl), ?_⟩
  exact (h.2 JobStatus.completed (Or.inl rfl)).2
    [PollerEvent.timer, PollerEvent.queryFailure, PollerEvent.response JobStatus.pending]
    (by intro e he; fin_cases he <;> rfl)

/-- Effect of `k` consecutive transport failures while polling: each of the
first `retryLimit - failures` of them re-issues the query, and any further
failure moves the poller to `Failed(retries-exhausted)` for good. -/
lemma runPoller_failures : ∀ (k : Nat) (st : PollerState) (id : String),
    st.phase = Phase.polling → st.jobId = some id → st.failures ≤ retryLimit →
    (runPoller st (List.replicate k PollerEvent.queryFailure)).2
        = List.replicate (min k (retryLimit - st.failures)) (Action.issueQuery id) ∧
    (runPoller st (List.replicate k PollerEvent.queryFailure)).1.phase
        = (if k ≤ retryLimit - st.failures then Phase.polling else Phase.failedRetries) := by
  intro k
  induction k with
  | zero => intro st id hp hid hf; simp [runPoller, hp]
  | succ k ih =>
    intro st id hp hid hf
    have hrep : List.replicate (k + 1) PollerEvent.queryFailure
        = PollerEvent.queryFailure :: List.replicate k PollerEvent.queryFailure := rfl
    by_cases hlt : st.failures < retryLimit
    · have hstep : pollerStep st PollerEvent.queryFailure
          = ({ st with failures := st.failures + 1 }, [Action.issueQuery id]) := by
        simp [pollerStep, onQueryFailure, hp, hid, hlt]
      have ih2 := ih { st with failures := st.failures + 1 } id (by simpa using hp)
        (by simpa using hid) (by simp; omega)
      have hrun : runPoller st (List.replicate (k + 1) PollerEvent.queryFailure)
          = ((runPoller { st with failures := st.failures + 1 }
                (List.replicate k PollerEvent.queryFailure)).1,
             Action.issueQuery id ::
               (runPoller { st with failures := st.failures + 1 }
                 (List.replicate k PollerEvent.queryFailure)).2) := by
        rw [hrep]
        simp [runPoller, hstep]
      rw [hrun]
      constructor
      · show Action.issueQuery id :: _ = _
        rw [ih2.1]
        simp only [PollerState.failures] at *
        have hmin : min (k + 1) (retryLimit - st.failures)
            = (min k (retryLimit - (st.failures + 1))) + 1 := by omega
        rw [hmin, List.replicate_succ]
      · rw [ih2.2]
        simp only [PollerState.failures] at *
        by_cases hk : k ≤ retryLimit - (st.failures + 1)
        · rw [if_pos hk, if_pos (by omega)]
        · rw [if_neg hk, if_neg (by omega)]
    · have hfl : st.failures = retryLimit := by omega
      have hstep : pollerStep st PollerEvent.queryFailure
          = ({ st with phase := Phase.failedRetries }, []) := by
        simp [pollerStep, onQueryFailure, hp, hid, hlt]
      have hterm := runPoller_terminal (List.replicate k PollerEvent.queryFailure)
        { st with phase := Phase.failedRetries } (by simp) (by simp)
        (by intro e he; rw [(List.eq_of_mem_replicate he : e = PollerEvent.queryFailure)]; rfl)
      have hrun : runPoller st (List.replicate (k + 1) PollerEvent.queryFailure)
          = ((runPoller { st with phase := Phase.failedRetries }
                (List.replicate k PollerEvent.queryFailure)).1,
             (runPoller { st with phase := Phase.failedRetries }
               (List.replicate k PollerEvent.queryFailure)).2) := by
        rw [hrep]
        simp [runPoller, hstep]
      rw [hrun]
      constructor
      · rw [hterm.1, hfl]
        simp
      · rw [hterm.2, hfl]
        rw [if_neg (by omega)]

/-- C5: the retry budget for transport-level status-query failures is 3;
while polling with a fresh query, each of the first three consecutive
failures re-issues the query and no more than three retries are ever issued;
once the third retry has also failed, the poller is in
`Failed(retries-exhausted)`. -/
theorem C5_retry_budget (st : PollerState) (id : String) (k : Nat)
    (hp : st.phase = Phase.polling) (hid : st.jobId = some id) (hf : st.failures = 0) :
    retryLimit = 3 ∧
    (runPoller st (List.replicate k PollerEvent.queryFailure)).2
        = List.replicate (min k 3) (Action.issueQuery id) ∧
    (retryLimit < k →
      (runPoller st (List.replicate k PollerEvent.queryFailure)).1.phase
        = Phase.failedRetries) := by
  have h := runPoller_failures k st id hp hid (by rw [hf]; omega)
  rw [hf] at h
  refine ⟨rfl, ?_, fun hk => ?_⟩
  · simpa [retryLimit] using h.1
  · rw [h.2]
    have hk3 : ¬ (k ≤ retryLimit - 0) := by
      simp only [retryLimit] at hk ⊢
      omega
    rw [if_neg hk3]

/-- C5, witness: five consecutive transport failures of a fresh status query
issue exactly three retries, after which the poller is in
`Failed(retries-exhausted)`. -/
theorem C5_retry_budget_witness :
    (runPoller pollingSample (List.replicate 5 PollerEvent.queryFailure)).2
        = [Action.issueQuery ("job-123"), Action.issueQuery ("job-123"),
           Action.issueQuery ("job-123")] ∧
    (runPoller pollingSample (List.replicate 5 PollerEvent.queryFailure)).1.phase
        = Phase.failedRetries := by
  have h := C5_retry_budget pollingSample ("job-123") 5 rfl rfl rfl
  exact ⟨by rw [h.2.1]; rfl, h.2.2 (by decide)⟩

/-- From `idle` with no truthy job id, a run of events that never changes the
job id stays idle, issues nothing, and keeps the snapshot and the job id. -/
lemma runPoller_idle : ∀ (evs : List PollerEvent) (st : PollerState),
    st.phase = Phase.idle → jsTruthyId st.jobId = false →
    (∀ e ∈ evs, isSetJob e = false) →
    (runPoller st evs).2 = [] ∧ (runPoller st evs).1.phase = Phase.idle ∧
    (runPoller st evs).1.snapshot = st.snapshot ∧
    (runPoller st evs).1.jobId = st.jobId := by
  intro evs
  induction evs with
  | nil => intro st hp hj _; exact ⟨rfl, hp, rfl, rfl⟩
  | cons e es ih =>
    intro st hp hj hno
    have he : isSetJob e = false := hno e (List.mem_cons_self e es)
    have hstep : (pollerStep st e).2 = [] ∧ (pollerStep st e).1.phase = Phase.idle ∧
        (pollerStep st e).1.snapshot = st.snapshot ∧
        (pollerStep st e).1.jobId = st.jobId := by
      cases e with
      | timer =>
        cases hjj : st.jobId with
        | none => simp [pollerStep, hjj, hp]
        | some id => simp [pollerStep, hjj, hp]
      | response s => simp [pollerStep, onStatusResponse, hp]
      | queryFailure => simp [pollerStep, onQueryFailure, hp]
      | setEnabled b =>
        cases hjj : st.jobId with
        | none => simp [pollerStep, hjj, hp]
        | some id =>
          have hfalse : pollEnabled b (some id) = false := by
            rw [hjj] at hj
            simp [pollEnabled, hj]
          simp [pollerStep, hjj, hp, hfalse]
      | setJob idOpt => simp [isSetJob] at he
    have ih2 := ih (pollerStep st e).1 hstep.2.1
      (by rw [hstep.2.2.2]; exact hj)
      (fun x hx => hno x (List.mem_cons_of_mem e hx))
    refine ⟨?_, ih2.2.1, ?_, ?_⟩
    · show ((pollerStep st e).2 ++ (runPoller (pollerStep st e).1 es).2) = []
      rw [hstep.1, ih2.1]
      rfl
    · show (runPoller (pollerStep st e).1 es).1.snapshot = st.snapshot
      rw [ih2.2.2.1, hstep.2.2.1]
    · show (runPoller (pollerStep st e).1 es).1.jobId = st.jobId
      rw [ih2.2.2.2, hstep.2.2.2]

/-- C8: with no (truthy) job id the poller never issues a status query and
stays `Idle` throughout a run that does not set a job id; and disabling the
caller-controlled flag suspends scheduling (the timer fires into nothing)
without discarding the last known snapshot. -/
theorem C8_idle_and_disabled (st : PollerState) (evs : List PollerEvent) :
    (st.phase = Phase.idle → jsTruthyId st.jobId = false →
      (∀ e ∈ evs, isSetJob e = false) →
      (runPoller st evs).2 = [] ∧ (runPoller st evs).1.phase = Phase.idle) ∧
    ((pollerStep st (PollerEvent.setEnabled false)).1.snapshot = st.snapshot ∧
     (pollerStep st (PollerEvent.setEnabled false)).2 = []) ∧
    (st.enabled = false → (pollerStep st PollerEvent.timer).2 = []) := by
  refine ⟨?_, ?_, ?_⟩
  · intro hp hj hno
    have h := runPoller_idle evs st hp hj hno
    exact ⟨h.1, h.2.1⟩
  · cases hjj : st.jobId with
    | none => simp [pollerStep, hjj]
    | some id =>
      cases hph : st.phase <;> simp [pollerStep, hjj, hph, pollEnabled]
  · intro hen
    cases hjj : st.jobId with
    | none => simp [pollerStep, hjj]
    | some id => simp [pollerStep, hjj, pollEnabled, hen]

/-- C8, witness: with no job id, a timer fire, a stray response and a flag
toggle issue nothing and leave the poller idle with its snapshot intact;
disabling the flag on an active poller also issues nothing and keeps the
snapshot. -/
theorem C8_idle_and_disabled_witness :
    ((runPoller idleSample
        [PollerEvent.timer, PollerEvent.response JobStatus.pending,
         PollerEvent.setEnabled true]).2 = [] ∧
     (runPoller idleSample
        [PollerEvent.timer, PollerEvent.response JobStatus.pending,
         PollerEvent.setEnabled true]).1.phase = Phase.idle) ∧
    ((pollerStep pollingSample (PollerEvent.setEnabled false)).1.snapshot
        = some JobStatus.processing ∧
     (pollerStep pollingSample (PollerEvent.setEnabled false)).2 = []) := by
  constructor
  · exact (C8_idle_and_disabled idleSample
      [PollerEvent.timer, PollerEvent.response JobStatus.pending,
       PollerEvent.setEnabled true]).1 rfl rfl
      (by intro e he; fin_cases he <;> rfl)
  · exact (C8_idle_and_disabled pollingSample []).2.1

/-- Every analysis call issued by a single analyzer step carries a payload
whose trimmed length exceeds 3. -/
lemma analyzerStep_calls (st : AnalyzerState) (e : AnEvent) :
    ∀ p ∈ (analyzerStep st e).2, 3 < (jsTrim p).length := by
  cases e with
  | change v => simp [analyzerStep]
  | timerFire =>
    cases hp : st.pendingTimer with
    | none => simp [analyzerStep, hp]
    | some d =>
      by_cases hc : st.value ≠ st.debouncedValue ∧ 3 < (jsTrim st.value).length
      · intro p hmem
        simp [analyzerStep, hp, hc] at hmem
        rw [hmem]
        exact hc.2
      · simp [analyzerStep, hp, hc]
  | analysisResult a => simp [analyzerStep]

/-- Every analysis call issued over a whole run carries a payload whose
trimmed length exceeds 3. -/
lemma runAnalyzer_calls : ∀ (evs : List AnEvent) (st : AnalyzerState),
    ∀ p ∈ (runAnalyzer st evs).2, 3 < (jsTrim p).length := by
  intro evs
  induction evs with
  | nil => intro st p hp; simp [runAnalyzer] at hp
  | cons e es ih =>
    intro st p hp
    have hsplit : p ∈ (analyzerStep st e).2 ∨ p ∈ (runAnalyzer (analyzerStep st e).1 es).2 := by
      have : p ∈ (analyzerStep st e).2 ++ (runAnalyzer (analyzerStep st e).1 es).2 := hp
      exact List.mem_append.mp this
    cases hsplit with
    | inl h => exact analyzerStep_calls st e p h
    | inr h => exact ih (analyzerStep st e).1 p h

/-- C4: the debounce delay is 500 ms; every analysis call issued over any run
carries a settled value whose trimmed length exceeds 3 (so inputs of trimmed
length at most 3 never trigger a call); a settled value of trimmed length at
most 3 issues no call and leaves the displayed analysis untouched; an input
change only schedules the 500 ms debounce timer, never calls, and never
clears the analysis; and any step that issues a call is a debounce-timer
settlement whose payload is exactly the newly settled value. -/
theorem C4_debounced_analysis (st : AnalyzerState) (evs : List AnEvent) :
    debounceDelayMs = 500 ∧
    (∀ p ∈ (runAnalyzer st evs).2, 3 < (jsTrim p).length) ∧
    ((jsTrim st.value).length ≤ 3 →
      (analyzerStep st AnEvent.timerFire).2 = [] ∧
      (analyzerStep st AnEvent.timerFire).1.analysis = st.analysis) ∧
    (∀ v, (analyzerStep st (AnEvent.change v)).2 = [] ∧
      (analyzerStep st (AnEvent.change v)).1.analysis = st.analysis ∧
      (analyzerStep st (AnEvent.change v)).1.pendingTimer = some debounceDelayMs) ∧
    (∀ e, (analyzerStep st e).2 ≠ [] →
      e = AnEvent.timerFire ∧
      (analyzerStep st e).2 = [(analyzerStep st e).1.debouncedValue]) := by
  refine ⟨rfl, runAnalyzer_calls evs st, ?_, ?_, ?_⟩
  · intro hshort
    cases hp : st.pendingTimer with
    | none => simp [analyzerStep, hp]
    | some d =>
      have hc : ¬ (st.value ≠ st.debouncedValue ∧ 3 < (jsTrim st.value).length) := by
        intro hcon
        omega
      simp [analyzerStep, hp, hc]
  · intro v
    simp [analyzerStep]
  · intro e hne
    cases e with
    | change v => simp [analyzerStep] at hne
    | analysisResult a => simp [analyzerStep] at hne
    | timerFire =>
      refine ⟨rfl, ?_⟩
      cases hp : st.pendingTimer with
      | none => simp [analyzerStep, hp] at hne
      | some d =>
        by_cases hc : st.value ≠ st.debouncedValue ∧ 3 < (jsTrim st.value).length
        · simp [analyzerStep, hp, hc]
        · simp [analyzerStep, hp, hc] at hne

/-- C4, witness: settling the input `hi ` (trimmed length 2) issues no
analysis call and keeps the previously shown analysis. -/
theorem C4_debounced_analysis_witness :
    (analyzerStep analyzerSampleShort AnEvent.timerFire).2 = [] ∧
    (analyzerStep analyzerSampleShort AnEvent.timerFire).1.analysis
        = some ("prev-analysis") := by
  have h := C4_debounced_analysis analyzerSampleShort []
  exact h.2.2.1 (by decide)

/-- One submission-flow step keeps the invariant that any stored file passed
validation, and every `file` field of a form it sends holds a validated file. -/
lemma uiStep_preserves (st : UploadUIState) (e : UIEvent)
    (h : ∀ g id, st.uploadedFile = some (g, id) → validFile g) :
    (∀ g id, (uiStep st e).1.uploadedFile = some (g, id) → validFile g) ∧
    (∀ c ∈ (uiStep st e).2, ∀ form, c = NetworkCall.redact form →
      ∀ g, ((("file"), FormValue.fileVal g) ∈ form) → validFile g) := by
  cases e with
  | drop genId f =>
    cases hd : onDrop genId f with
    | accepted id =>
      have hv := (onDrop_accepted genId f id hd).1
      refine ⟨?_, ?_⟩
      · intro g gid hgf
        simp [uiStep, hd] at hgf
        rw [← hgf.1]
        exact hv
      · intro c hc
        simp [uiStep, hd] at hc
    | tooLarge m =>
      refine ⟨?_, ?_⟩
      · intro g gid hgf
        simp [uiStep, hd] at hgf
        exact h g gid hgf
      · intro c hc
        simp [uiStep, hd] at hc
    | unsupported m =>
      refine ⟨?_, ?_⟩
      · intro g gid hgf
        simp [uiStep, hd] at hgf
        exact h g gid hgf
      · intro c hc
        simp [uiStep, hd] at hc
  | setPrompt p =>
    refine ⟨?_, ?_⟩
    · intro g gid hgf
      simp [uiStep] at hgf
      exact h g gid hgf
    · intro c hc
      simp [uiStep] at hc
  | process =>
    cases hu : st.uploadedFile with
    | none =>
      refine ⟨?_, ?_⟩
      · intro g gid hgf
        have hst : (uiStep st UIEvent.process).1 = st := by simp [uiStep, hu]
        rw [hst] at hgf
        exact h g gid hgf
      · intro c hc
        simp [uiStep, hu] at hc
    | some fp =>
      refine ⟨?_, ?_⟩
      · intro g gid hgf
        have hst : (uiStep st UIEvent.process).1 = st := by simp [uiStep, hu]
        rw [hst] at hgf
        exact h g gid hgf
      · intro c hc form hcf g hg
        have hc2 : c = NetworkCall.redact (handleProcessForm fp.1 st.prompt) := by
          simpa [uiStep, hu] using hc
        rw [hc2] at hcf
        have hform : handleProcessForm fp.1 st.prompt = form := by
          injection hcf
        rw [← hform, handleProcessForm] at hg
        have hgv := (mem_redactFormData_fileKey fp.1 _ _ _).mp hg
        have hgf : g = fp.1 := by injection hgv
        rw [hgf]
        exact h fp.1 fp.2 (by rw [hu])

/-- Over a whole run, every `file` field of every transmitted form holds a
file that passed validation. -/
lemma runUI_calls_valid : ∀ (evs : List UIEvent) (st : UploadUIState),
    (∀ g id, st.uploadedFile = some (g, id) → validFile g) →
    ∀ c ∈ (runUI st evs).2, ∀ form, c = NetworkCall.redact form →
      ∀ g, ((("file"), FormValue.fileVal g) ∈ form) → validFile g := by
  intro evs
  induction evs with
  | nil => intro st h c hc; simp [runUI] at hc
  | cons e es ih =>
    intro st h c hc form hcf g hg
    have hsplit := List.mem_append.mp
      (hc : c ∈ (uiStep st e).2 ++ (runUI (uiStep st e).1 es).2)
    cases hsplit with
    | inl hx => exact (uiStep_preserves st e h).2 c hx form hcf g hg
    | inr hx => exact ih (uiStep st e).1 (uiStep_preserves st e h).1 c hx form hcf g hg

/-- C6: a file failing the size or type rule is rejected locally: the drop
changes nothing and issues no network call, and over any run starting from a
state holding only validated files, no transmitted form ever carries such a
file. -/
theorem C6_no_network_for_invalid (st : UploadUIState) (evs : List UIEvent) (f : FileModel)
    (hf : ¬ validFile f)
    (hinv : ∀ g id, st.uploadedFile = some (g, id) → validFile g) :
    (∀ genId, uiStep st (UIEvent.drop genId f) = (st, [])) ∧
    (∀ c ∈ (runUI st evs).2, ∀ form, c = NetworkCall.redact form →
      (("file"), FormValue.fileVal f) ∉ form) := by
  constructor
  · intro genId
    unfold validFile at hf
    rcases not_and_or.mp hf with hsz | hty
    · have hgt : f.size > maxSize := by omega
      simp [uiStep, onDrop, hgt]
    · by_cases hsz : f.size > maxSize
      · simp [uiStep, onDrop, hsz]
      · simp [uiStep, onDrop, hsz, hty]
  · intro c hc form hcf hmem
    exact hf (runUI_calls_valid evs st hinv c hc form hcf f hmem)

/-- C6, witness: dropping a file one byte over the limit leaves the state
unchanged and issues no call. -/
theorem C6_no_network_for_invalid_witness :
    uiStep emptyUI (UIEvent.drop ("id1") hugeFile) = (emptyUI, []) := by
  exact (C6_no_network_for_invalid emptyUI [] hugeFile (by decide)
    (by intro g id hgi; simp [emptyUI] at hgi)).1 ("id1")

end Cloak
